import Mathlib

/-!
Verification of the Kafka wire-protocol codec, metadata-log reader and request
handlers of the `codecrafters-kafka` server (Rust source under `src/`).

Modelling conventions (shallow embedding):

* A byte is a `Nat` (< 256 by convention); a byte buffer (`bytes::Bytes` cursor)
  is a `List Nat`, and each reader returns `Option (value × rest)` where `rest`
  is the un-consumed suffix.  A `none` result models a Rust panic or error
  (`bytes` crate buffer underflow, `assert_eq!`, `unimplemented!`, `anyhow!`).
* Rust `&str` / `String` values are modelled by their UTF-8 byte lists
  (`String::from_utf8_lossy` is the identity on the valid UTF-8 encodings that
  Rust `&str` values serialize to, so list equality matches string equality).
* UUIDs are modelled by their 16 raw bytes.  The source renders them as
  canonical lowercase `8-4-4-4-12` hex strings; that rendering is injective,
  so equality of rendered strings coincides with equality of the byte lists.
* Fixed-width integers are `Int` (signed) or `Nat` (unsigned) with explicit
  two's-complement conversion and `% 2^w` where the source truncates.
-/

/-- `Buf::copy_to_slice` of `n` bytes: first `n` bytes and the rest, or `none`
on underflow (the `bytes` crate panics). -/
def readN (n : Nat) (bs : List Nat) : Option (List Nat × List Nat) :=
  if n ≤ bs.length then some (bs.take n, bs.drop n) else none

/-- `Buf::get_u8`. -/
def getU8 : List Nat → Option (Nat × List Nat)
  | [] => none
  | b :: rest => some (b, rest)

/-- Big-endian value of a byte list. -/
def beNat (bs : List Nat) : Nat := bs.foldl (fun a b => a * 256 + b) 0

/-- Two's-complement reading of a `w`-bit unsigned value. -/
def toSigned (w : Nat) (n : Nat) : Int :=
  if n < 2 ^ (w - 1) then (n : Int) else (n : Int) - 2 ^ w

/-- `Buf::get_u16/u32/u64` (big-endian), as a function of the byte width. -/
def getUBE (n : Nat) (bs : List Nat) : Option (Nat × List Nat) :=
  (readN n bs).map (fun p => (beNat p.1, p.2))

/-- `Buf::get_i8/i16/i32/i64` (big-endian two's complement). -/
def getIBE (n : Nat) (bs : List Nat) : Option (Int × List Nat) :=
  (readN n bs).map (fun p => (toSigned (8 * n) (beNat p.1), p.2))

/-- Big-endian bytes (`to_be_bytes`) of a natural number, `width` bytes wide. -/
def natToBEBytes (width n : Nat) : List Nat :=
  (List.range width).map (fun i => n / 256 ^ (width - 1 - i) % 256)

/-- `BufMut::put_i16` (big-endian two's complement). -/
def int16be (v : Int) : List Nat := natToBEBytes 2 ((v % (2 ^ 16)).toNat)

/-- `BufMut::put_i32` (big-endian two's complement). -/
def int32be (v : Int) : List Nat := natToBEBytes 4 ((v % (2 ^ 32)).toNat)

/-- `BufMut::put_i64` (big-endian two's complement). -/
def int64be (v : Int) : List Nat := natToBEBytes 8 ((v % (2 ^ 64)).toNat)

/-- `BufMut::put_u32` (big-endian). -/
def u32be (n : Nat) : List Nat := natToBEBytes 4 (n % (2 ^ 32))

/-- Loop of `VarInt::deserialize` (src/protocol/types.rs:216-242).  State:
`b0` is the previously read byte, `res` the accumulator, `nBytes` the count of
bytes read so far.  Note the source adds `(b1 & 0x7f) << 7` on EVERY iteration
(the shift does not grow), and exits the loop returning `res` once
`nBytes > 10`.  The two in-loop panics (buffer underflow; last byte still has
the continuation bit) are modelled as `none`.  `b0 & 0x80` and `b0 & 0x7f` on
the sign-extended `i8` depend only on the original byte, so bytes stay `Nat`;
`res` is a sum of non-negative terms, hence also a `Nat`. -/
def VarInt.loop : Nat → Nat → Nat → List Nat → Option (Nat × List Nat)
  | b0, res, nBytes, [] =>
      if 128 ≤ b0 ∧ nBytes ≤ 10 then none else some (res, [])
  | b0, res, nBytes, b1 :: rest =>
      if 128 ≤ b0 ∧ nBytes ≤ 10 then
        if rest.isEmpty ∧ 128 ≤ b1 then none
        else VarInt.loop b1 (res + b1 % 128 * 128) (nBytes + 1) rest
      else some (res, b1 :: rest)

/-- `VarInt::deserialize` (src/protocol/types.rs:201-245). -/
def VarInt.deserialize (buf : List Nat) : Option (Nat × List Nat) :=
  match buf with
  | [] => none
  | b0 :: rest => VarInt.loop b0 (b0 % 128) 1 rest

/-- `CompactString::serialize` (src/protocol/types.rs:18-24): the length is
written as `s.len() as u8 + 1`, a single (possibly wrapped) byte. -/
def CompactString.serialize (s : List Nat) : List Nat :=
  ((s.length + 1) % 256) :: s

/-- `CompactString::deserialize` (src/protocol/types.rs:26-32). -/
def CompactString.deserialize (src : List Nat) : Option (List Nat × List Nat) := do
  let (len, r) ← VarInt.deserialize src
  let stringLen := if 1 < len then len - 1 else 0
  let (bytes, r) ← readN stringLen r
  pure (bytes, r)

/-- `CompactNullableBytes::deserialize` (src/protocol/types.rs:152-158). -/
def CompactNullableBytes.deserialize (src : List Nat) : Option (List Nat × List Nat) := do
  let (len, r) ← VarInt.deserialize src
  let bytesLen := if 1 < len then len - 1 else 0
  let (bytes, r) ← readN bytesLen r
  pure (bytes, r)

/-- Element loop shared by `CompactArray::deserialize`, `Array::deserialize`
and `NullableBytes::deserialize`: run the element decoder `n` times. -/
def decodeElems {α : Type} (dec : List Nat → Option (α × List Nat)) :
    Nat → List Nat → Option (List α × List Nat)
  | 0, src => some ([], src)
  | n + 1, src => do
      let (x, r) ← dec src
      let (xs, r') ← decodeElems dec n r
      pure (x :: xs, r')

/-- `CompactArray::deserialize` (src/protocol/types.rs:75-86). -/
def CompactArray.deserialize {α : Type} (dec : List Nat → Option (α × List Nat))
    (src : List Nat) : Option (List α × List Nat) := do
  let (len, r) ← VarInt.deserialize src
  let itemsLen := if 1 < len then len - 1 else 0
  decodeElems dec itemsLen r

/-- `CompactArray::serialize` (src/protocol/types.rs:62-73): the length is
written as `items.len() as u8 + 1`, a single (possibly wrapped) byte. -/
def CompactArray.serialize {α : Type} (enc : α → List Nat) (items : List α) : List Nat :=
  ((items.length + 1) % 256) :: (items.map enc).flatten

/-- `NullableBytes::deserialize` (src/protocol/types.rs:125-135): an `INT32`
count, `-1` meaning zero elements.  A negative count other than `-1` is cast
`as usize` by the source, giving a count of at least `2^63` elements; since
every element decoder used here consumes at least one byte, decoding that many
elements from a finite buffer always underflows (panics), modelled as `none`. -/
def NullableBytes.deserialize {α : Type} (dec : List Nat → Option (α × List Nat))
    (src : List Nat) : Option (List α × List Nat) := do
  let (len, r) ← getIBE 4 src
  if len = -1 then decodeElems dec 0 r
  else if len < 0 then none
  else decodeElems dec len.toNat r

/-- `Uuid::deserialize` (src/protocol/types.rs:170-179): 16 raw bytes (the
source renders them as a canonical hex string; see the module conventions). -/
def Uuid.deserialize (src : List Nat) : Option (List Nat × List Nat) :=
  readN 16 src

/-- `TaggedFields::serialize` (src/protocol/types.rs:186-190). -/
def TaggedFields.serialize : List Nat := [0]

/-! ## Metadata-log data model (src/protocol/record_batch.rs) -/

/-- `TopicValue` (record_batch.rs:204-207); the UUID is its 16 raw bytes. -/
structure TopicValue where
  topic_name : List Nat
  topic_id : List Nat
deriving DecidableEq

/-- `PartitionValue` (record_batch.rs:211-224). -/
structure PartitionValue where
  partition_id : Nat
  topic_id : List Nat
  replicas : List Nat
  in_sync_replicas : List Nat
  removing_replicas : List Nat
  adding_replicas : List Nat
  leader_id : Nat
  leader_epoch : Nat
  partition_epoch : Nat
  directories : List (List Nat)
deriving DecidableEq

/-- `FeatureLevelValue` (record_batch.rs:240-243). -/
structure FeatureLevelValue where
  name : List Nat
  level : Nat
deriving DecidableEq

/-- `RecordValue` (record_batch.rs:197-201). -/
inductive RecordValue where
  | FeatureLevel (v : FeatureLevelValue)
  | Topic (v : TopicValue)
  | Partition (v : PartitionValue)
deriving DecidableEq

/-- `Header` (record_batch.rs:193), an empty marker struct. -/
structure Header where
deriving DecidableEq

/-- `Record` (record_batch.rs:136-152).  The varint-typed fields are `i64` in
the source but `VarInt::deserialize` only ever returns non-negative values
(its accumulator is a sum of masked low-7-bit groups), so they are `Nat`. -/
structure Record where
  length : Nat
  attributes : Int
  timestamp_delta : Nat
  offset_delta : Nat
  key : List Nat
  value_length : Nat
  value : RecordValue
  headers : List Header
deriving DecidableEq

/-- `RecordBatch` (record_batch.rs:47-91). -/
structure RecordBatch where
  base_offset : Int
  batch_length : Int
  partition_leader_epoch : Int
  magic : Int
  crc : Nat
  attributes : Int
  last_offset_delta : Int
  base_timestamp : Int
  max_timestamp : Int
  producer_id : Int
  producer_epoch : Int
  base_sequence : Int
  records : List Record
deriving DecidableEq

/-- `RecordValue::from_bytes` (record_batch.rs:246-315).  The `assert_eq!`
checks on frame version, value version and tagged-field count, and the
`unimplemented!` on an unknown record type, are panics, modelled as `none`. -/
def RecordValue.from_bytes (src : List Nat) : Option (RecordValue × List Nat) := do
  let (frame_version, r) ← getU8 src
  if frame_version ≠ 1 then none else
  let (record_type, r) ← getU8 r
  match record_type with
  | 2 => do
      let (version, r) ← getU8 r
      if version ≠ 0 then none else
      let (topic_name, r) ← CompactString.deserialize r
      let (topic_id, r) ← Uuid.deserialize r
      let (tagged_fields_count, r) ← VarInt.deserialize r
      if tagged_fields_count ≠ 0 then none else
      pure (RecordValue.Topic ⟨topic_name, topic_id⟩, r)
  | 3 => do
      let (version, r) ← getU8 r
      if version ≠ 1 then none else
      let (partition_id, r) ← getUBE 4 r
      let (topic_id, r) ← Uuid.deserialize r
      let (replicas, r) ← CompactArray.deserialize (getUBE 4) r
      let (in_sync_replicas, r) ← CompactArray.deserialize (getUBE 4) r
      let (removing_replicas, r) ← CompactArray.deserialize (getUBE 4) r
      let (adding_replicas, r) ← CompactArray.deserialize (getUBE 4) r
      let (leader_id, r) ← getUBE 4 r
      let (leader_epoch, r) ← getUBE 4 r
      let (partition_epoch, r) ← getUBE 4 r
      let (directories, r) ← CompactArray.deserialize Uuid.deserialize r
      let (tagged_fields_count, r) ← VarInt.deserialize r
      if tagged_fields_count ≠ 0 then none else
      pure (RecordValue.Partition ⟨partition_id, topic_id, replicas, in_sync_replicas,
        removing_replicas, adding_replicas, leader_id, leader_epoch, partition_epoch,
        directories⟩, r)
  | 12 => do
      let (version, r) ← getU8 r
      if version ≠ 0 then none else
      let (name, r) ← CompactString.deserialize r
      let (level, r) ← getUBE 2 r
      let (tagged_fields_count, r) ← VarInt.deserialize r
      if tagged_fields_count ≠ 0 then none else
      pure (RecordValue.FeatureLevel ⟨name, level⟩, r)
  | _ => none

/-- The `Deserialize<Header> for Record` impl (record_batch.rs:178-183):
returns `Header` without consuming anything (headers are assumed empty). -/
def Header.deserialize (src : List Nat) : Option (Header × List Nat) :=
  some (⟨⟩, src)

/-- `Record::from_bytes` (record_batch.rs:155-175). -/
def Record.from_bytes (src : List Nat) : Option (Record × List Nat) := do
  let (length, r) ← VarInt.deserialize src
  let (attributes, r) ← getIBE 1 r
  let (timestamp_delta, r) ← VarInt.deserialize r
  let (offset_delta, r) ← VarInt.deserialize r
  let (key, r) ← CompactNullableBytes.deserialize r
  let (value_length, r) ← VarInt.deserialize r
  let (value, r) ← RecordValue.from_bytes r
  let (headers, r) ← CompactArray.deserialize Header.deserialize r
  pure (⟨length, attributes, timestamp_delta, offset_delta, key, value_length,
    value, headers⟩, r)

/-- The reads of `RecordBatch::from_bytes` (record_batch.rs:94-124) after the
first two fields (`base_offset`, `batch_length`), bundled so that facts about
the rest of the parse can be stated independently of those fields.  The reads
are in source order. -/
def RecordBatch.parseTail (src : List Nat) :
    Option ((Int × Int × Nat × Int × Int × Int × Int × Int × Int × Int × List Record)
      × List Nat) := do
  let (partition_leader_epoch, r) ← getIBE 4 src
  let (magic, r) ← getIBE 1 r
  let (crc, r) ← getUBE 4 r
  let (attributes, r) ← getIBE 2 r
  let (last_offset_delta, r) ← getIBE 4 r
  let (base_timestamp, r) ← getIBE 8 r
  let (max_timestamp, r) ← getIBE 8 r
  let (producer_id, r) ← getIBE 8 r
  let (producer_epoch, r) ← getIBE 2 r
  let (base_sequence, r) ← getIBE 4 r
  let (records, r) ← NullableBytes.deserialize Record.from_bytes r
  pure ((partition_leader_epoch, magic, crc, attributes, last_offset_delta,
    base_timestamp, max_timestamp, producer_id, producer_epoch, base_sequence,
    records), r)

/-- `RecordBatch::from_bytes` (record_batch.rs:94-124). -/
def RecordBatch.from_bytes (src : List Nat) : Option (RecordBatch × List Nat) := do
  let (base_offset, r) ← getIBE 8 src
  let (batch_length, r) ← getIBE 4 r
  let ((partition_leader_epoch, magic, crc, attributes, last_offset_delta,
    base_timestamp, max_timestamp, producer_id, producer_epoch, base_sequence,
    records), rest) ← RecordBatch.parseTail r
  pure (⟨base_offset, batch_length, partition_leader_epoch, magic, crc, attributes,
    last_offset_delta, base_timestamp, max_timestamp, producer_id, producer_epoch,
    base_sequence, records⟩, rest)

/-- Loop of `RecordBatches::from_file` (record_batch.rs:22-25): parse batches
while bytes remain.  Modelled from the spec for the part not under src/: the
rewrite that retains, for each batch, the exact byte range it occupied
("return the ordered list of `RecordBatch` plus, for each batch, the exact
byte range", spec section 4.2).  `fuel` bounds the iteration count; every
successful batch parse consumes at least one byte, so `fuel = bs.length`
suffices and the loop stops exactly when no bytes remain. -/
def RecordBatches.loopWithRaw : Nat → List Nat → Option (List (RecordBatch × List Nat))
  | _, [] => some []
  | 0, _ :: _ => none
  | fuel + 1, b :: bs => do
      let (batch, rest) ← RecordBatch.from_bytes (b :: bs)
      let raw := (b :: bs).take ((b :: bs).length - rest.length)
      let more ← RecordBatches.loopWithRaw fuel rest
      pure ((batch, raw) :: more)

/-- `RecordBatches::from_file` (record_batch.rs:15-27) applied to the file's
bytes, keeping each batch's raw byte range (see `RecordBatches.loopWithRaw`). -/
def RecordBatches.fromFileBytes (bs : List Nat) : Option (List (RecordBatch × List Nat)) :=
  RecordBatches.loopWithRaw bs.length bs

/-! ## Protocol enums (src/protocol.rs) -/

/-- `ApiKey` (protocol.rs:11-15). -/
inductive ApiKey where
  | Fetch
  | ApiVersions
  | DescribeTopicPartitions
deriving DecidableEq

/-- The `#[repr(i16)]` wire values of `ApiKey`. -/
def ApiKey.toInt : ApiKey → Int
  | .Fetch => 1
  | .ApiVersions => 18
  | .DescribeTopicPartitions => 75

/-- `ErrorCode` (protocol.rs:20-25).  The `UnknownTopicId` variant is used by
src/logic/fetch_responses.rs:29 but its declaration is not under src/;
modelled from the spec: "`100 UnknownTopicId`" (spec section 6). -/
inductive ErrorCode where
  | None
  | UnknownTopicOrPartition
  | UnsupportedVersion
  | InvalidRequest
  | UnknownTopicId
deriving DecidableEq

/-- The `#[repr(i16)]` wire values of `ErrorCode`. -/
def ErrorCode.toInt : ErrorCode → Int
  | .None => 0
  | .UnknownTopicOrPartition => 3
  | .UnsupportedVersion => 35
  | .InvalidRequest => 42
  | .UnknownTopicId => 100

/-- Modelled from the spec: `ErrorCode::serialize`, called at
src/protocol/response/fetch.rs:44,106 and describe_topic_partitions.rs:65,117
but not declared under src/; the spec (sections 3 and 6) gives error codes as
INT16 big-endian wire values. -/
def ErrorCode.serialize (e : ErrorCode) : List Nat := int16be e.toInt

/-! ## ApiVersions response (src/protocol/response/api_versions.rs) -/

/-- `ApiVersionsApiKeys` (api_versions.rs:84-88). -/
structure ApiVersionsApiKeys where
  api_key : ApiKey
  min_version : Int
  max_version : Int
deriving DecidableEq

/-- `Serialize for ApiVersionsApiKeys` (api_versions.rs:90-99). -/
def ApiVersionsApiKeys.serialize (k : ApiVersionsApiKeys) : List Nat :=
  int16be k.api_key.toInt ++ int16be k.min_version ++ int16be k.max_version ++ [0]

/-- `ApiVersionsResponseV3` (api_versions.rs:15-21); `bytes` is the byte
representation filled in by `serialize` during `new`. -/
structure ApiVersionsResponseV3 where
  correlation_id : Int
  error_code : ErrorCode
  api_keys_vec : List ApiVersionsApiKeys
  throttle_time_ms : Int
  bytes : List Nat
deriving DecidableEq

/-- `ApiVersionsResponseV3::new` (api_versions.rs:24-61) together with the
private `serialize` (api_versions.rs:65-75) it calls: the v0 header is the
4-byte big-endian correlation id (response.rs:25-28). -/
def ApiVersionsResponseV3.new (correlation_id request_api_version : Int) :
    ApiVersionsResponseV3 :=
  let api_keys_vec : List ApiVersionsApiKeys :=
    [⟨.ApiVersions, 0, 4⟩, ⟨.DescribeTopicPartitions, 0, 0⟩, ⟨.Fetch, 0, 16⟩]
  let error_code :=
    if 0 ≤ request_api_version ∧ request_api_version ≤ 4 then ErrorCode.None
    else ErrorCode.UnsupportedVersion
  let bytes :=
    int32be correlation_id ++ int16be error_code.toInt ++
    CompactArray.serialize ApiVersionsApiKeys.serialize api_keys_vec ++
    int32be 0 ++ [0]
  ⟨correlation_id, error_code, api_keys_vec, 0, bytes⟩

/-! ## DescribeTopicPartitions response entities
(src/protocol/response/describe_topic_partitions.rs) -/

/-- Response `Partition` (describe_topic_partitions.rs:76-86). -/
structure Partition where
  error_code : ErrorCode
  partition_index : Nat
  leader_id : Nat
  leader_epoch : Nat
  replicas : List Nat
  in_sync_replicas : List Nat
  eligible_leader_replicas : List Nat
  last_known_eligible_leader_replicas : List Nat
  off_line_replicas : List Nat
deriving DecidableEq

/-- Response `Topic` (describe_topic_partitions.rs:53-60). -/
structure Topic where
  error_code : ErrorCode
  name : List Nat
  topic_id : List Nat
  is_internal : Bool
  partitions : List Partition
  topic_authorized_operations : Int
deriving DecidableEq

/-- `DescribeTopicPartitionsResponseV0` (describe_topic_partitions.rs:10-16),
entity fields only (its `new` fills `throttle_time_ms = 0`, `next_cursor = 0xFF`). -/
structure DescribeTopicPartitionsResponseV0 where
  correlation_id : Int
  throttle_time_ms : Int
  topics : List Topic
  next_cursor : Nat
deriving DecidableEq

/-- `DescribeTopicPartitionsResponseV0::new` (describe_topic_partitions.rs:19-32). -/
def DescribeTopicPartitionsResponseV0.new (correlation_id : Int) (topics : List Topic) :
    DescribeTopicPartitionsResponseV0 :=
  ⟨correlation_id, 0, topics, 0xFF⟩

/-! ## DescribeTopicPartitions handler (src/logic/topic_partitions.rs)

The source's `process` reads the metadata-log file and, in a `while` loop,
parses one `RecordBatch` from the byte stream and then scans it against every
requested topic (logic/topic_partitions.rs:47-97).  Parsing a batch does not
depend on the scan, so the handler is stated over the already-parsed batch
sequence (the byte-level parser is `RecordBatch.from_bytes` above); the scan
logic below is a line-by-line transcription of the loop bodies, threading the
function-level mutable variables `topic_id` and `topic_error_code`. -/

/-- `DEFAULT_UNKNOWN_TOPIC_UUID` (logic/topic_partitions.rs:11), as 16 bytes. -/
def DEFAULT_UNKNOWN_TOPIC_UUID : List Nat := List.replicate 16 0

/-- Body of the record scan (logic/topic_partitions.rs:55-83) for one record:
state is `(topic_id, topic_error_code, partitions)`.  A matching `TopicValue`
updates `topic_id` and clears the error; then a `PartitionValue` whose
`topic_id` equals the (possibly just-updated) `topic_id` is pushed, with
`eligible_leader_replicas := adding_replicas`, empty last-known ELRs and
`off_line_replicas := removing_replicas` (the `Partition::new` call at
lines 69-79). -/
def scanStep (topicName : List Nat) (st : List Nat × ErrorCode × List Partition)
    (rec : Record) : List Nat × ErrorCode × List Partition :=
  let (tid, err, parts) := st
  let (tid, err) :=
    match rec.value with
    | .Topic t => if t.topic_name = topicName then (t.topic_id, ErrorCode.None) else (tid, err)
    | _ => (tid, err)
  match rec.value with
  | .Partition p =>
      if p.topic_id = tid then
        (tid, err, parts ++ [⟨ErrorCode.None, p.partition_id, p.leader_id, p.leader_epoch,
          p.replicas, p.in_sync_replicas, p.adding_replicas, [], p.removing_replicas⟩])
      else (tid, err, parts)
  | _ => (tid, err, parts)

/-- One iteration of the per-topic loop (logic/topic_partitions.rs:50-96):
`topic_id` is reset to the default UUID, the records are scanned, and a
`Topic` is pushed only when at least one partition matched. -/
def topicStep (records : List Record) (st : List Nat × ErrorCode × List Topic)
    (topicName : List Nat) : List Nat × ErrorCode × List Topic :=
  let (_, err, acc) := st
  let (tid, err, parts) :=
    records.foldl (scanStep topicName) (DEFAULT_UNKNOWN_TOPIC_UUID, err, [])
  if parts.isEmpty then (tid, err, acc)
  else (tid, err, acc ++ [⟨err, topicName, tid, false, parts, 0xDF⟩])

/-- One iteration of the fallback loop (logic/topic_partitions.rs:99-117):
a requested topic with no entry yet gets an `UnknownTopicOrPartition` entry
whose `topic_id` is the residual value of the scan variable `topic_id`. -/
def fallbackStep (tid : List Nat) (acc : List Topic) (n : List Nat) : List Topic :=
  if acc.any (fun t => t.name == n) then acc
  else acc ++ [⟨ErrorCode.UnknownTopicOrPartition, n, tid, false, [], 0xDF⟩]

/-- `process` (logic/topic_partitions.rs:17-123) over parsed batches: the
batch loop followed by the fallback loop, returning the response's topics. -/
def processBatches (reqTopics : List (List Nat)) (batches : List RecordBatch) :
    List Topic :=
  let st := batches.foldl (fun st b => reqTopics.foldl (topicStep b.records) st)
    (DEFAULT_UNKNOWN_TOPIC_UUID, ErrorCode.UnknownTopicOrPartition, [])
  reqTopics.foldl (fallbackStep st.1) st.2.2

/-- The partitions collected when scanning `records` for `topicName`
(the `.2.2` component of the record-scan fold from the reset state). -/
def scanParts (topicName : List Nat) (records : List Record) : List Partition :=
  (records.foldl (scanStep topicName)
    (DEFAULT_UNKNOWN_TOPIC_UUID, ErrorCode.UnknownTopicOrPartition, [])).2.2

/-! ## Request header and DescribeTopicPartitions request
(src/protocol/request.rs, src/protocol/request/describe_topic_partitions.rs) -/

/-- `HeaderV2` (request.rs:12-17); `client_id` is its UTF-8 bytes. -/
structure HeaderV2 where
  request_api_key : Int
  request_api_version : Int
  correlation_id : Int
  client_id : List Nat
deriving DecidableEq

/-- `DescribeTopicPartitionsRequestV0` (request/describe_topic_partitions.rs:14-19). -/
structure DescribeTopicPartitionsRequestV0 where
  header : HeaderV2
  topics : List (List Nat)
  response_partition_limit : Int
  cursor : Nat
deriving DecidableEq

/-- `DescribeTopicPartitionsRequestV0::process`
(request/describe_topic_partitions.rs:39-74): fails with "missing topic name"
when the topics list is empty, otherwise answers for the FIRST topic only with
an `UnknownTopicOrPartition` entry (all-zero UUID, no partitions, authorized
operations `0x0DF`). -/
def DescribeTopicPartitionsRequestV0.process (req : DescribeTopicPartitionsRequestV0) :
    Except String DescribeTopicPartitionsResponseV0 :=
  match req.topics with
  | [] => .error "missing topic name"
  | topic_name :: _ =>
      .ok (DescribeTopicPartitionsResponseV0.new req.header.correlation_id
        [⟨ErrorCode.UnknownTopicOrPartition, topic_name, DEFAULT_UNKNOWN_TOPIC_UUID,
          false, [], 0xDF⟩])

/-! ## Fetch entities and handler (src/protocol/request/fetch.rs,
src/protocol/response/fetch.rs, src/logic/fetch_responses.rs) -/

/-- Fetch request `Partition` (request/fetch.rs:142-149), renamed to avoid the
clash with the DescribeTopicPartitions response `Partition`. -/
structure FetchPartitionReq where
  partition : Nat
  current_leader_epoch : Nat
  fetch_offset : Nat
  last_fetched_epoch : Nat
  log_start_offset : Nat
  partition_max_bytes : Nat
deriving DecidableEq

/-- `TopicRequest` (request/fetch.rs:99-102). -/
structure TopicRequest where
  topic_id : List Nat
  partitions : List FetchPartitionReq
deriving DecidableEq

/-- `ForgottenTopicData` (request/fetch.rs:118-121). -/
structure ForgottenTopicData where
  topic_id : List Nat
  partitions : List Nat
deriving DecidableEq

/-- `FetchRequestV16` (request/fetch.rs:15-33). -/
structure FetchRequestV16 where
  header : HeaderV2
  max_wait_ms : Nat
  min_bytes : Nat
  max_bytes : Nat
  isolation_level : Nat
  session_id : Nat
  session_epoch : Nat
  topics : List TopicRequest
  forgotten_topics_data : List ForgottenTopicData
  rack_id : List Nat
deriving DecidableEq

/-- `AbortedTransaction` (response/fetch.rs:119-122). -/
structure AbortedTransaction where
  producer_id : Nat
  first_offset : Nat
deriving DecidableEq

/-- `Serialize for AbortedTransaction` (response/fetch.rs:124-128) is
`todo!()` (a panic); the handler only ever builds empty aborted-transaction
lists, so this encoder is never applied and its value is irrelevant. -/
def AbortedTransaction.serialize (_ : AbortedTransaction) : List Nat := []

/-- Response `TopicPartition` (response/fetch.rs:91-100); `record_batches` is
the list of raw `BatchBytes` chunks. -/
structure TopicPartition where
  partition_index : Nat
  error_code : ErrorCode
  high_watermark : Int
  last_stable_offset : Int
  log_start_offset : Int
  aborted_transactions : List AbortedTransaction
  preferred_read_replica : Int
  record_batches : List (List Nat)
deriving DecidableEq

/-- `Serialize for TopicPartition` (response/fetch.rs:102-116).  `BatchBytes`
serializes to its own bytes (response/fetch.rs:85-89), so the record-batches
compact array uses the identity encoder. -/
def TopicPartition.serializeBytes (tp : TopicPartition) : List Nat :=
  u32be tp.partition_index ++ ErrorCode.serialize tp.error_code ++
  int64be tp.high_watermark ++ int64be tp.last_stable_offset ++
  int64be tp.log_start_offset ++
  CompactArray.serialize AbortedTransaction.serialize tp.aborted_transactions ++
  int32be tp.preferred_read_replica ++
  CompactArray.serialize id tp.record_batches ++
  TaggedFields.serialize

/-- `TopicResponse` (response/fetch.rs:57-60). -/
structure TopicResponse where
  topic_id : List Nat
  partitions : List TopicPartition
deriving DecidableEq

/-- `FetchResponseV16` (response/fetch.rs:11-18), entity fields. -/
structure FetchResponseV16 where
  correlation_id : Int
  throttle_time_ms : Int
  error_code : ErrorCode
  session_id : Nat
  responses : List TopicResponse
deriving DecidableEq

/-- `FetchResponseV16::new` (response/fetch.rs:21-35). -/
def FetchResponseV16.new (correlation_id : Int) (session_id : Nat)
    (responses : List TopicResponse) : FetchResponseV16 :=
  ⟨correlation_id, 0, ErrorCode.None, session_id, responses⟩

/-- Modelled from the spec: `RecordBatches::raw_batch_for_topic(topic_id,
partition_id)`, called at src/logic/fetch_responses.rs:43 but not declared
under src/ (record_batch.rs only has `batch_for_topic`).  Spec section 4.2:
"returns the on-disk byte range of the first `RecordBatch` that contains any
`TopicValue` whose `topic_id` matches (partition_id is currently ignored)". -/
def RecordBatches.raw_batch_for_topic (bws : List (RecordBatch × List Nat))
    (topic_id : List Nat) (_partition_id : Nat) : Option (List Nat) :=
  (bws.find? (fun bw => bw.1.records.any (fun r =>
    match r.value with
    | .Topic t => t.topic_id == topic_id
    | _ => false))).map (fun bw => bw.2)

/-- Per-partition body of the Fetch handler (logic/fetch_responses.rs:35-67):
the metadata log is re-read (and re-parsed) for every partition; a parse
failure aborts the whole handler (the `?` operators).  The per-topic mutable
`error_code` starts as `UnknownTopicId` and is set to `None` when a batch is
found; it is NOT reset between partitions. -/
def fetchPartitionStep (logBytes : List Nat) (topic_id : List Nat)
    (st : ErrorCode × List TopicPartition) (p : FetchPartitionReq) :
    Option (ErrorCode × List TopicPartition) := do
  let bws ← RecordBatches.fromFileBytes logBytes
  let (error_code, record_batches) :=
    match RecordBatches.raw_batch_for_topic bws topic_id p.partition with
    | some raw => (ErrorCode.None, [raw])
    | none => (st.1, [])
  pure (error_code, st.2 ++ [⟨0, error_code, 0, 0, 0, [], 0, record_batches⟩])

/-- Per-topic body of the Fetch handler (logic/fetch_responses.rs:27-71). -/
def fetchTopicStep (logBytes : List Nat) (tr : TopicRequest) : Option TopicResponse := do
  let (_, partitions) ←
    tr.partitions.foldlM (fetchPartitionStep logBytes tr.topic_id)
      (ErrorCode.UnknownTopicId, [])
  pure ⟨tr.topic_id, partitions⟩

/-- `process` (logic/fetch_responses.rs:14-78), with the metadata-log file
contents passed in as `logBytes`; `none` models the handler's error returns
(unreadable or unparsable log). -/
def processFetch (req : FetchRequestV16) (logBytes : List Nat) :
    Option FetchResponseV16 :=
  if req.topics.isEmpty then
    some (FetchResponseV16.new req.header.correlation_id req.session_id [])
  else do
    let responses ← req.topics.mapM (fetchTopicStep logBytes)
    pure (FetchResponseV16.new req.header.correlation_id req.session_id responses)

/-! ## Concrete inputs used by counterexamples and witnesses -/

/-- A 127-byte string (127 copies of byte 97, `'a'`). -/
def s127 : List Nat := List.replicate 127 97

/-- A non-zero topic UUID. -/
def exUuid : List Nat := List.replicate 15 0 ++ [1]

/-- A metadata record carrying `TopicValue { name = "k" = [107], id = exUuid }`. -/
def exTopicRecord : Record :=
  ⟨0, 0, 0, 0, [], 0, .Topic ⟨[107], exUuid⟩, []⟩

/-- A metadata record carrying a `PartitionValue` of topic `exUuid`. -/
def exPartitionRecord : Record :=
  ⟨0, 0, 0, 0, [], 0, .Partition ⟨0, exUuid, [1], [1], [], [], 1, 0, 0, []⟩, []⟩

/-- A parsed metadata batch containing the topic and partition records above. -/
def exBatch : RecordBatch :=
  ⟨0, 0, 0, 0, 0, 0, 0, 0, 0, 0, 0, 0, [exTopicRecord, exPartitionRecord]⟩

/-- Metadata-log bytes of a single batch whose `batch_length` field (46) does
not describe its actual extent: 8 zero bytes (`base_offset`), the 4 bytes
`[0,0,0,46]` (`batch_length = 46`), 45 zero bytes for the fixed fields up to
`base_sequence`, and a zero `INT32` record count — 61 bytes in total. -/
def c5bytes : List Nat := List.replicate 8 0 ++ [0, 0, 0, 46] ++ List.replicate 49 0

/-- A Fetch request for one topic (`exUuid`) with one partition. -/
def exFetchReq : FetchRequestV16 :=
  ⟨⟨1, 16, 7, []⟩, 0, 0, 0, 0, 42, 0, [⟨exUuid, [⟨0, 0, 0, 0, 0, 0⟩]⟩], [], []⟩

/-- The `TopicPartition` the Fetch handler emits for an unknown topic id. -/
def unknownTopicPartition : TopicPartition :=
  ⟨0, ErrorCode.UnknownTopicId, 0, 0, 0, [], 0, []⟩

/-- A DescribeTopicPartitions request with an empty topics list. -/
def exEmptyDtpReq : DescribeTopicPartitionsRequestV0 :=
  ⟨⟨75, 0, 7, []⟩, [], 0, 0xFF⟩

/-! ## Helper lemmas -/

/-- Reading exactly the length of a known prefix consumes that prefix. -/
theorem readN_append (o t : List Nat) : readN o.length (o ++ t) = some (o, t) := by
  simp [readN, List.take_left, List.drop_left]

/-- `VarInt.loop` fails when every remaining byte has the continuation bit set
and the bytes run out exactly as the 10-byte budget is reached. -/
theorem VarInt.loop_all_cont : ∀ (bs : List Nat) (b0 res n : Nat), 128 ≤ b0 →
    (∀ b ∈ bs, 128 ≤ b) → bs.length + n = 10 → VarInt.loop b0 res n bs = none := by
  intro bs
  induction bs with
  | nil =>
      intro b0 res n hb0 _ hlen
      rw [VarInt.loop, if_pos ⟨hb0, by omega⟩]
  | cons b1 rest ih =>
      intro b0 res n hb0 hall hlen
      rw [VarInt.loop, if_pos ⟨hb0, by omega⟩]
      rcases rest with _ | ⟨c, cs⟩
      · rw [if_pos ⟨by simp, hall b1 (by simp)⟩]
      · rw [if_neg (by simp)]
        apply ih
        · exact hall b1 (by simp)
        · intro b hb; exact hall b (List.mem_cons_of_mem _ hb)
        · simp at hlen ⊢; omega

/-! ## Claim C1 — CompactString round-trip -/

/-- C1 (amended): for every string `s` (modelled by its UTF-8 bytes) of byte
length at most 126, CompactString round-trips: deserializing the serialized
bytes yields `s` back with the cursor left exactly on the following bytes.
(126, not 127: the length prefix is `N + 1`, and `N + 1 = 128` already has the
varint continuation bit set — see the counterexample.) -/
theorem compactString_roundtrip (s rest : List Nat) (h : s.length ≤ 126) :
    CompactString.deserialize (CompactString.serialize s ++ rest) = some (s, rest) := by
  have h1 : (s.length + 1) % 256 = s.length + 1 := Nat.mod_eq_of_lt (by omega)
  have h2 : (s.length + 1) % 128 = s.length + 1 := Nat.mod_eq_of_lt (by omega)
  have hloop : VarInt.loop (s.length + 1) (s.length + 1) 1 (s ++ rest)
      = some (s.length + 1, s ++ rest) := by
    cases hsr : s ++ rest with
    | nil =>
        rw [VarInt.loop, if_neg]
        omega
    | cons a l =>
        rw [VarInt.loop, if_neg]
        omega
  have h3 : (if 1 < s.length + 1 then s.length + 1 - 1 else 0) = s.length := by
    split <;> omega
  simp only [CompactString.serialize, CompactString.deserialize, List.cons_append,
    VarInt.deserialize, h1, h2, hloop, Option.bind_eq_bind, Option.some_bind, h3,
    readN_append, Option.pure_def]

/-- C1 witness: the round-trip theorem applied to the 2-byte string "hi"
with trailing byte 7. -/
theorem compactString_roundtrip_witness :
    ([104, 105] : List Nat).length ≤ 126 ∧
    CompactString.deserialize (CompactString.serialize [104, 105] ++ [7]) =
      some ([104, 105], [7]) :=
  ⟨by decide, compactString_roundtrip [104, 105] [7] (by decide)⟩

set_option maxRecDepth 4000 in
/-- C1 counterexample: a 127-byte string does NOT round-trip, refuting the
claim's "at most 127" bound — its length prefix is the byte 128, whose
continuation bit makes `VarInt.deserialize` consume the first content byte,
producing length 12416 and an out-of-range slice (a panic, i.e. `none`). -/
theorem compactString_roundtrip_cex :
    s127.length = 127 ∧ CompactString.deserialize (CompactString.serialize s127) = none := by
  constructor
  · decide
  · decide

/-! ## Claim C2 — varint place values -/

/-- C2: evaluation at the failing input.  The bytes `[0x80, 0x80, 0x01]` form
a well-formed 3-byte varint whose value under the claimed base-128
little-endian semantics is `1 * 2 ^ 14 = 16384`, but `VarInt::deserialize`
returns 128: the source adds `(b1 & 0x7f) << 7` with a FIXED shift of 7 for
every continuation byte instead of `7 * i`. -/
theorem varint_fixed_shift :
    VarInt.deserialize [128, 128, 1] = some (128, []) ∧ (128 : Nat) ≠ 2 ^ 14 := by
  decide

/-! ## Claim C3 — ApiVersions api_keys entries -/

/-- C3 (amended): for every ApiVersionsRequest, whatever its api_version, the
response's api_keys array contains exactly three entries IN THIS ORDER:
(api_key=18 ApiVersions, min=0, max=4), (api_key=75 DescribeTopicPartitions,
min=0, max=0), (api_key=1 Fetch, min=0, max=16) — the same three entries the
claim lists, but the code pushes ApiVersions first and Fetch last
(api_versions.rs:27-43). -/
theorem api_versions_keys (cid v : Int) :
    (ApiVersionsResponseV3.new cid v).api_keys_vec =
      [⟨.ApiVersions, 0, 4⟩, ⟨.DescribeTopicPartitions, 0, 0⟩, ⟨.Fetch, 0, 16⟩] := rfl

/-- C3 counterexample: the response for a version-0 request does not list the
entries in the claimed order (Fetch first). -/
theorem api_versions_keys_cex :
    (ApiVersionsResponseV3.new 0 0).api_keys_vec ≠
      [⟨.Fetch, 0, 16⟩, ⟨.ApiVersions, 0, 4⟩, ⟨.DescribeTopicPartitions, 0, 0⟩] := by
  decide

/-! ## Claim C9 — ApiVersions error code and complete response -/

/-- C9: the response's error code is UnsupportedVersion (wire value 35) iff
the request's api_version lies outside [0,4] and None (0) otherwise, and a
complete byte serialization — 4-byte big-endian correlation id (v0 header),
error code, the populated api_keys compact array, throttle 0 and tag buffer —
is produced in every case, including UnsupportedVersion. -/
theorem api_versions_error (cid v : Int) :
    ((ApiVersionsResponseV3.new cid v).error_code = ErrorCode.UnsupportedVersion ↔
      ¬(0 ≤ v ∧ v ≤ 4)) ∧
    ((ApiVersionsResponseV3.new cid v).error_code = ErrorCode.None ↔ (0 ≤ v ∧ v ≤ 4)) ∧
    (ApiVersionsResponseV3.new cid v).bytes =
      int32be cid ++ (if 0 ≤ v ∧ v ≤ 4 then [0, 0] else [0, 35]) ++
      [4, 0, 18, 0, 0, 0, 4, 0, 0, 75, 0, 0, 0, 0, 0, 0, 1, 0, 0, 0, 16, 0, 0, 0, 0, 0, 0] := by
  have e0 : int16be ErrorCode.None.toInt = [0, 0] := by decide
  have e35 : int16be ErrorCode.UnsupportedVersion.toInt = [0, 35] := by decide
  have ek : CompactArray.serialize ApiVersionsApiKeys.serialize
      [⟨.ApiVersions, 0, 4⟩, ⟨.DescribeTopicPartitions, 0, 0⟩, ⟨.Fetch, 0, 16⟩] ++
      (int32be 0 ++ [0]) =
      [4, 0, 18, 0, 0, 0, 4, 0, 0, 75, 0, 0, 0, 0, 0, 0, 1, 0, 0, 0, 16, 0, 0, 0, 0, 0, 0] := by
    decide
  by_cases h : 0 ≤ v ∧ v ≤ 4
  · simp [ApiVersionsResponseV3.new, h, e0, List.append_assoc, ek]
  · simp [ApiVersionsResponseV3.new, h, e35, List.append_assoc, ek]

/-! ## Claim C8 — ten continuation bytes -/

/-- C8 (amended): for every input of EXACTLY ten bytes, all with the
continuation bit set, varint decoding fails.  (When an eleventh byte follows,
the decoder stops after consuming it and returns a value instead of failing —
see the counterexample.) -/
theorem varint_ten_continuation (bs : List Nat) (hlen : bs.length = 10)
    (hall : ∀ b ∈ bs, 128 ≤ b) : VarInt.deserialize bs = none := by
  cases bs with
  | nil => simp at hlen
  | cons b0 rest =>
      rw [VarInt.deserialize]
      apply VarInt.loop_all_cont
      · exact hall b0 (by simp)
      · intro b hb; exact hall b (List.mem_cons_of_mem _ hb)
      · simp at hlen; omega

/-- C8 witness: the amended theorem applied to ten `0x80` bytes. -/
theorem varint_ten_continuation_witness :
    (List.replicate 10 128 : List Nat).length = 10 ∧
    VarInt.deserialize (List.replicate 10 128) = none :=
  ⟨by decide, varint_ten_continuation (List.replicate 10 128) (by decide) (by decide)⟩

/-- C8 counterexample: an input whose first ten bytes all have the
continuation bit set, followed by a terminating byte, decodes SUCCESSFULLY
(the loop's `n_bytes <= 10` guard exits the loop returning the accumulator
after the eleventh byte), refuting the claim that such inputs always fail. -/
theorem varint_eleventh_byte_cex :
    (∀ b ∈ (List.replicate 10 128 ++ [0] : List Nat).take 10, 128 ≤ b) ∧
    VarInt.deserialize (List.replicate 10 128 ++ [0]) = some (0, []) := by
  constructor
  · decide
  · decide

/-! ## Claim C10 — empty DescribeTopicPartitions topics list -/

/-- C10: a DescribeTopicPartitions request whose topics list is empty makes
the handler return the error "missing topic name" instead of a response
entity; the dispatcher (logic.rs:29-33) propagates it with `?`, and per the
error-handling policy (spec section 7) the caller then closes the connection
without a reply. -/
theorem dtp_empty_topics (req : DescribeTopicPartitionsRequestV0) (h : req.topics = []) :
    req.process = .error "missing topic name" := by
  simp [DescribeTopicPartitionsRequestV0.process, h]

/-- C10 witness: the theorem applied to a concrete empty-topics request. -/
theorem dtp_empty_topics_witness :
    exEmptyDtpReq.topics = [] ∧
    exEmptyDtpReq.process = .error "missing topic name" :=
  ⟨rfl, dtp_empty_topics exEmptyDtpReq rfl⟩

/-! ## Claim C5 — per-batch consumption -/

/-- C5 counterexample: a 61-byte input parses into a single batch whose
`batch_length` field is 46, so the reader consumed 61 bytes, not
`batch_length + 12 = 58` — `RecordBatch::from_bytes` never uses
`batch_length` to bound the batch. -/
theorem record_batch_length_cex :
    (RecordBatch.from_bytes c5bytes).map
      (fun p => (p.1.batch_length, (c5bytes.length - p.2.length : Nat))) = some (46, 61) ∧
    (61 : Nat) ≠ 46 + 12 := by
  constructor
  · decide
  · decide

/-- C5 (amended): the number of bytes the reader consumes per batch is
independent of the `batch_length` field (bytes 8..12 of the batch): replacing
those four bytes by any other four bytes leaves the un-consumed rest — hence
the consumed count — unchanged.  Consumption is the 57-byte fixed header plus
whatever the records region occupies, so it equals `batch_length + 12` exactly
when `batch_length` happens to equal 45 plus the records-region size; the
`from_file` loop stops when no bytes remain. -/
theorem record_batch_consumption (o l l' t : List Nat) (ho : o.length = 8)
    (hl : l.length = 4) (hl' : l'.length = 4) :
    (RecordBatch.from_bytes (o ++ l ++ t)).map Prod.snd =
      (RecordBatch.from_bytes (o ++ l' ++ t)).map Prod.snd := by
  have r8 : ∀ (x : List Nat), ∃ v, getIBE 8 (o ++ x) = some (v, x) := by
    intro x
    refine ⟨toSigned 64 (beNat o), ?_⟩
    have hr : readN 8 (o ++ x) = some (o, x) := by rw [← ho]; exact readN_append o x
    simp [getIBE, hr]
  have r4 : ∀ (u x : List Nat), u.length = 4 → ∃ v, getIBE 4 (u ++ x) = some (v, x) := by
    intro u x hu
    refine ⟨toSigned 32 (beNat u), ?_⟩
    have hr : readN 4 (u ++ x) = some (u, x) := by rw [← hu]; exact readN_append u x
    simp [getIBE, hr]
  obtain ⟨v1, hv1⟩ := r8 (l ++ t)
  obtain ⟨v1', hv1'⟩ := r8 (l' ++ t)
  obtain ⟨v2, hv2⟩ := r4 l t hl
  obtain ⟨v2', hv2'⟩ := r4 l' t hl'
  rw [List.append_assoc o l t, List.append_assoc o l' t]
  simp only [RecordBatch.from_bytes, Option.bind_eq_bind, hv1, hv1', hv2, hv2',
    Option.some_bind]
  cases h : RecordBatch.parseTail t with
  | none => simp
  | some p => simp

/-- C5 witness: the consumption-independence theorem applied to the
counterexample bytes with `batch_length` 46 replaced by 0. -/
theorem record_batch_consumption_witness :
    (RecordBatch.from_bytes
        (List.replicate 8 0 ++ [0, 0, 0, 46] ++ List.replicate 49 0)).map Prod.snd =
      (RecordBatch.from_bytes
        (List.replicate 8 0 ++ [0, 0, 0, 0] ++ List.replicate 49 0)).map Prod.snd :=
  record_batch_consumption (List.replicate 8 0) [0, 0, 0, 46] [0, 0, 0, 0]
    (List.replicate 49 0) (by decide) (by decide) (by decide)

/-! ## Claim C7 — Fetch with an unknown topic id -/

/-- Turning an everywhere-`some` element computation into `mapM`. -/
theorem mapM_option_some {α β : Type} (g : α → Option β) (f : α → β) :
    ∀ (xs : List α), (∀ x ∈ xs, g x = some (f x)) → xs.mapM g = some (xs.map f) := by
  intro xs
  induction xs with
  | nil => intro _; rfl
  | cons a l ih =>
      intro h
      rw [List.mapM_cons, h a (by simp), ih (fun x hx => h x (List.mem_cons_of_mem _ hx))]
      rfl

/-- When no batch contains a `TopicValue` with the queried id, the
raw-batch lookup returns nothing. -/
theorem raw_batch_for_topic_none (bws : List (RecordBatch × List Nat)) (tid : List Nat)
    (pid : Nat)
    (h : ∀ bw ∈ bws, ∀ r ∈ bw.1.records, ∀ tv, r.value = RecordValue.Topic tv →
      tv.topic_id ≠ tid) :
    RecordBatches.raw_batch_for_topic bws tid pid = none := by
  have hfind : ∀ bw ∈ bws,
      ¬((bw.1.records.any fun r =>
        match r.value with
        | RecordValue.Topic t => t.topic_id == tid
        | _ => false) = true) := by
    intro bw hbw
    simp only [List.any_eq_true]
    rintro ⟨r, hr, hmatch⟩
    rcases hv : r.value with _ | tv | _ <;> rw [hv] at hmatch <;> simp at hmatch
    exact h bw hbw r hr tv hv hmatch
  unfold RecordBatches.raw_batch_for_topic
  rw [List.find?_eq_none.mpr hfind]
  rfl

/-- The per-partition Fetch fold keeps `UnknownTopicId` and appends one
empty-bodied partition response per requested partition when the topic id
matches nothing in the log. -/
theorem fetch_fold_unknown (logBytes : List Nat) (tid : List Nat)
    (bws : List (RecordBatch × List Nat))
    (h1 : RecordBatches.fromFileBytes logBytes = some bws)
    (h2 : ∀ bw ∈ bws, ∀ r ∈ bw.1.records, ∀ tv, r.value = RecordValue.Topic tv →
      tv.topic_id ≠ tid) :
    ∀ (ps : List FetchPartitionReq) (acc : List TopicPartition),
      ps.foldlM (fetchPartitionStep logBytes tid) (ErrorCode.UnknownTopicId, acc) =
        some (ErrorCode.UnknownTopicId, acc ++ ps.map (fun _ => unknownTopicPartition)) := by
  intro ps
  induction ps with
  | nil => intro acc; simp
  | cons p ps ih =>
      intro acc
      rw [List.foldlM_cons]
      have hstep : fetchPartitionStep logBytes tid (ErrorCode.UnknownTopicId, acc) p =
          some (ErrorCode.UnknownTopicId, acc ++ [unknownTopicPartition]) := by
        simp [fetchPartitionStep, h1, raw_batch_for_topic_none bws tid p.partition h2,
          unknownTopicPartition]
      rw [hstep]
      simp only [Option.bind_eq_bind, Option.some_bind, ih, List.map_cons,
        List.append_assoc, List.singleton_append]

/-- C7: for every Fetch request whose topic ids match no `TopicValue` in the
(parsable) metadata log, every `FetchPartitionResp` carries
`error_code = UnknownTopicId` (wire value 100 — the `[0, 100]` segment) and an
empty `record_batches_raw`, whose compact-array encoding is the single byte
`0x01` (the `[1]` segment before the preferred-read-replica bytes). -/
theorem fetch_unknown_topic (req : FetchRequestV16) (logBytes : List Nat)
    (bws : List (RecordBatch × List Nat))
    (h1 : RecordBatches.fromFileBytes logBytes = some bws)
    (h2 : ∀ tr ∈ req.topics, ∀ bw ∈ bws, ∀ r ∈ bw.1.records, ∀ tv,
      r.value = RecordValue.Topic tv → tv.topic_id ≠ tr.topic_id) :
    processFetch req logBytes =
      some (FetchResponseV16.new req.header.correlation_id req.session_id
        (req.topics.map (fun tr =>
          ⟨tr.topic_id, tr.partitions.map (fun _ => unknownTopicPartition)⟩))) ∧
    TopicPartition.serializeBytes unknownTopicPartition =
      [0, 0, 0, 0] ++ [0, 100] ++ List.replicate 24 0 ++ [1] ++ [0, 0, 0, 0] ++ [1] ++ [0] := by
  constructor
  · have htopics : ∀ tr ∈ req.topics, fetchTopicStep logBytes tr =
        some ⟨tr.topic_id, tr.partitions.map (fun _ => unknownTopicPartition)⟩ := by
      intro tr htr
      rw [fetchTopicStep, fetch_fold_unknown logBytes tr.topic_id bws h1 (h2 tr htr)
        tr.partitions []]
      rfl
    by_cases he : req.topics.isEmpty
    · have hnil : req.topics = [] := List.isEmpty_iff.mp he
      simp [processFetch, hnil]
    · unfold processFetch
      rw [if_neg (by simpa using he),
        mapM_option_some (fetchTopicStep logBytes)
          (fun tr => ⟨tr.topic_id, tr.partitions.map (fun _ => unknownTopicPartition)⟩)
          req.topics htopics]
      rfl
  · decide

/-- C7 witness: the theorem applied to a one-topic one-partition request over
an empty (hence trivially parsable, topic-free) metadata log. -/
theorem fetch_unknown_topic_witness :
    RecordBatches.fromFileBytes ([] : List Nat) = some [] ∧
    processFetch exFetchReq [] =
      some (FetchResponseV16.new 7 42 [⟨exUuid, [unknownTopicPartition]⟩]) ∧
    TopicPartition.serializeBytes unknownTopicPartition =
      [0, 0, 0, 0] ++ [0, 100] ++ List.replicate 24 0 ++ [1] ++ [0, 0, 0, 0] ++ [1] ++ [0] := by
  have h := fetch_unknown_topic exFetchReq [] [] rfl (by simp)
  exact ⟨rfl, h.1, h.2⟩

/-! ## Claim C4 — unknown-topic TopicInfo fields -/

/-- C4: evaluation at the failing input.  Requesting topics `"u"` (`[117]`,
absent) and `"k"` (`[107]`, present with id `exUuid`) against a log whose
batch holds a `TopicValue` for `"k"` and one of its partitions: the handler's
entry for the absent topic `"u"` carries `error_code = 3`, `is_internal =
false`, no partitions and operations `0x0DF` as claimed, but its `topic_id`
is `exUuid` — the residual value of the scan variable — NOT the all-zeros
UUID (logic/topic_partitions.rs:110 reuses `topic_id` instead of
`DEFAULT_UNKNOWN_TOPIC_UUID`). -/
theorem dtp_unknown_topic_id_leak :
    processBatches [[117], [107]] [exBatch] =
      [⟨ErrorCode.None, [107], exUuid, false,
        [⟨ErrorCode.None, 0, 1, 0, [1], [1], [], [], []⟩], 0xDF⟩,
       ⟨ErrorCode.UnknownTopicOrPartition, [117], exUuid, false, [], 0xDF⟩] ∧
    exUuid ≠ DEFAULT_UNKNOWN_TOPIC_UUID := by
  constructor
  · decide
  · decide

/-! ## Claim C6 — response ordering -/

/-- C6 counterexample: for the request `["u", "k"]` where only `"k"` exists in
the log, the response lists `"k"` first and `"u"` last — the topics are NOT in
request order (found topics are pushed during the log scan, missing ones are
appended by the fallback loop afterwards). -/
theorem dtp_order_cex :
    (processBatches [[117], [107]] [exBatch]).map Topic.name = [[107], [117]] ∧
    ([[107], [117]] : List (List Nat)) ≠ [[117], [107]] := by
  constructor
  · decide
  · decide

/-- The topic-id and partitions components of the record scan do not depend on
the threaded error-code component of its initial state. -/
theorem scan_err_indep (name : List Nat) :
    ∀ (recs : List Record) (tid : List Nat) (e e' : ErrorCode) (ps : List Partition),
      ((recs.foldl (scanStep name) (tid, e, ps)).1 =
        (recs.foldl (scanStep name) (tid, e', ps)).1) ∧
      ((recs.foldl (scanStep name) (tid, e, ps)).2.2 =
        (recs.foldl (scanStep name) (tid, e', ps)).2.2) := by
  intro recs
  induction recs with
  | nil => intro tid e e' ps; exact ⟨rfl, rfl⟩
  | cons r rs ih =>
      intro tid e e' ps
      rw [List.foldl_cons, List.foldl_cons]
      rcases hv : r.value with fl | tv | pv
      · simp only [scanStep, hv]
        exact ih tid e e' ps
      · by_cases hn : tv.topic_name = name
        · simp [scanStep, hv, if_pos hn]
        · simp only [scanStep, hv, if_neg hn]
          exact ih tid e e' ps
      · by_cases hp : pv.topic_id = tid
        · simp only [scanStep, hv, if_pos hp]
          exact ih tid e e' _
        · simp only [scanStep, hv, if_neg hp]
          exact ih tid e e' ps

/-- Characterization of the per-batch topic loop: it appends, in request
order, one topic entry per requested name whose scan found partitions; every
appended entry's partitions are exactly the record-order scan result. -/
theorem topic_fold_spec (recs : List Record) :
    ∀ (ts : List (List Nat)) (tid0 : List Nat) (e0 : ErrorCode) (acc : List Topic),
      (((ts.foldl (topicStep recs) (tid0, e0, acc)).2.2).map Topic.name =
        acc.map Topic.name ++ ts.filter (fun n => !(scanParts n recs).isEmpty)) ∧
      (∀ t ∈ (ts.foldl (topicStep recs) (tid0, e0, acc)).2.2,
        t ∈ acc ∨ (t.partitions = scanParts t.name recs ∧ t.partitions ≠ [])) := by
  intro ts
  induction ts with
  | nil => intro tid0 e0 acc; exact ⟨by simp, fun t ht => Or.inl ht⟩
  | cons n rest ih =>
      intro tid0 e0 acc
      rw [List.foldl_cons]
      rcases hfold : recs.foldl (scanStep n) (DEFAULT_UNKNOWN_TOPIC_UUID, e0, [])
        with ⟨tid1, e1, parts1⟩
      have hparts : parts1 = scanParts n recs := by
        have := (scan_err_indep n recs DEFAULT_UNKNOWN_TOPIC_UUID e0
          ErrorCode.UnknownTopicOrPartition []).2
        rw [hfold] at this
        exact this
      by_cases hemp : parts1.isEmpty
      · have hstep : topicStep recs (tid0, e0, acc) n = (tid1, e1, acc) := by
          simp only [topicStep, hfold, if_pos hemp]
        rw [hstep]
        obtain ⟨ihn, ihm⟩ := ih tid1 e1 acc
        refine ⟨?_, ihm⟩
        rw [ihn, List.filter_cons_of_neg]
        rw [← hparts]
        simpa using hemp
      · have hstep : topicStep recs (tid0, e0, acc) n =
            (tid1, e1, acc ++ [⟨e1, n, tid1, false, parts1, 0xDF⟩]) := by
          simp only [topicStep, hfold, if_neg hemp]
        rw [hstep]
        obtain ⟨ihn, ihm⟩ := ih tid1 e1 (acc ++ [⟨e1, n, tid1, false, parts1, 0xDF⟩])
        constructor
        · rw [ihn, List.filter_cons_of_pos]
          · simp [List.append_assoc]
          · rw [← hparts]
            simpa using hemp
        · intro t ht
          rcases ihm t ht with hin | hp
          · rcases List.mem_append.mp hin with hin' | hT
            · exact Or.inl hin'
            · right
              have : t = ⟨e1, n, tid1, false, parts1, 0xDF⟩ := by simpa using hT
              subst this
              constructor
              · exact hparts
              · show parts1 ≠ []
                intro hnil
                exact hemp (by simp [hnil])
          · exact Or.inr hp

/-- Characterization of the fallback loop: for a duplicate-free request list
it appends, in request order, one empty error entry per requested name not
already present in the accumulated topics. -/
theorem fallback_fold_spec (tid : List Nat) :
    ∀ (ts : List (List Nat)) (acc : List Topic), ts.Nodup →
      ((ts.foldl (fallbackStep tid) acc).map Topic.name =
        acc.map Topic.name ++ ts.filter (fun n => !(acc.any (fun t => t.name == n)))) ∧
      (∀ t ∈ ts.foldl (fallbackStep tid) acc, t ∈ acc ∨ t.partitions = []) := by
  intro ts
  induction ts with
  | nil => intro acc _; exact ⟨by simp, fun t ht => Or.inl ht⟩
  | cons n rest ih =>
      intro acc hnd
      obtain ⟨hnotin, hnd'⟩ := List.nodup_cons.mp hnd
      rw [List.foldl_cons]
      by_cases hc : acc.any (fun t => t.name == n)
      · have hstep : fallbackStep tid acc n = acc := by
          simp only [fallbackStep, if_pos hc]
        rw [hstep]
        obtain ⟨ihn, ihm⟩ := ih acc hnd'
        refine ⟨?_, ihm⟩
        rw [ihn, List.filter_cons_of_neg]
        simp [hc]
      · have hstep : fallbackStep tid acc n =
            acc ++ [⟨ErrorCode.UnknownTopicOrPartition, n, tid, false, [], 0xDF⟩] := by
          simp only [fallbackStep, if_neg hc]
        rw [hstep]
        obtain ⟨ihn, ihm⟩ :=
          ih (acc ++ [⟨ErrorCode.UnknownTopicOrPartition, n, tid, false, [], 0xDF⟩]) hnd'
        constructor
        · rw [ihn, List.filter_cons_of_pos]
          · have hfc : rest.filter (fun m =>
                !((acc ++ [(⟨ErrorCode.UnknownTopicOrPartition, n, tid, false, [], 0xDF⟩ :
                    Topic)]).any
                  (fun t => t.name == m))) =
                rest.filter (fun m => !(acc.any (fun t => t.name == m))) := by
              apply List.filter_congr
              intro m hm
              have hMm : (n == m) = false :=
                beq_eq_false_iff_ne.mpr (fun h => hnotin (h ▸ hm))
              simp [List.any_append, hMm]
            rw [hfc]
            simp [List.append_assoc]
          · simp [hc]
        · intro t ht
          rcases ihm t ht with hin | hp
          · rcases List.mem_append.mp hin with hin' | hT
            · exact Or.inl hin'
            · right
              have : t = ⟨ErrorCode.UnknownTopicOrPartition, n, tid, false, [], 0xDF⟩ := by
                simpa using hT
              rw [this]
          · exact Or.inr hp

/-- C6 (amended): for a single-batch metadata log and a duplicate-free
request list, the response lists FIRST the requested topics whose scan found
at least one partition, in request order, THEN the remaining requested topics
(error entries), in request order — so topics do not in general appear in
plain request order (see the counterexample); and every response topic's
partitions are exactly the partitions collected by the record scan in
metadata-file order (or empty for error entries). -/
theorem dtp_topic_order (ts : List (List Nat)) (b : RecordBatch) (hts : ts.Nodup) :
    ((processBatches ts [b]).map Topic.name =
      ts.filter (fun n => !(scanParts n b.records).isEmpty) ++
      ts.filter (fun n => (scanParts n b.records).isEmpty)) ∧
    (∀ t ∈ processBatches ts [b],
      t.partitions = scanParts t.name b.records ∨ t.partitions = []) := by
  rcases hst : ts.foldl (topicStep b.records)
      (DEFAULT_UNKNOWN_TOPIC_UUID, ErrorCode.UnknownTopicOrPartition, [])
    with ⟨tidF, eF, accB⟩
  have hPB : processBatches ts [b] = ts.foldl (fallbackStep tidF) accB := by
    unfold processBatches
    simp only [List.foldl_cons, List.foldl_nil, hst]
  obtain ⟨hBn, hBm⟩ := topic_fold_spec b.records ts DEFAULT_UNKNOWN_TOPIC_UUID
    ErrorCode.UnknownTopicOrPartition []
  rw [hst] at hBn hBm
  simp only [List.map_nil, List.nil_append] at hBn
  obtain ⟨hFn, hFm⟩ := fallback_fold_spec tidF ts accB hts
  constructor
  · rw [hPB, hFn, hBn]
    have hfc : ts.filter (fun n => !(accB.any (fun t => t.name == n))) =
        ts.filter (fun n => (scanParts n b.records).isEmpty) := by
      apply List.filter_congr
      intro m hm
      have hmem : (accB.any (fun t => t.name == m)) = !(scanParts m b.records).isEmpty := by
        by_cases hf : (scanParts m b.records).isEmpty
        · have hnm : m ∉ accB.map Topic.name := by
            rw [hBn]
            intro hmem'
            have := (List.mem_filter.mp hmem').2
            rw [hf] at this
            simp at this
          rw [hf]
          simp only [Bool.not_true]
          apply List.any_eq_false.mpr
          intro t htacc
          simp only [beq_iff_eq]
          intro heq
          exact hnm (List.mem_map.mpr ⟨t, htacc, heq⟩)
        · have hmm : m ∈ accB.map Topic.name := by
            rw [hBn]
            exact List.mem_filter.mpr ⟨hm, by simpa using hf⟩
          obtain ⟨t, htacc, heq⟩ := List.mem_map.mp hmm
          have h1 : accB.any (fun t => t.name == m) = true :=
            List.any_eq_true.mpr ⟨t, htacc, by simp [heq]⟩
          rw [h1]
          simp [hf]
      rw [hmem, Bool.not_not]
    rw [hfc]
  · intro t ht
    rw [hPB] at ht
    rcases hFm t ht with hin | hp
    · rcases hBm t hin with hin0 | hp2
      · simp at hin0
      · exact Or.inl hp2.1
    · exact Or.inr hp

/-- C6 witness: the amended ordering theorem applied to the request
`["u", "k"]` and the one-batch log containing only `"k"`. -/
theorem dtp_topic_order_witness :
    ([[117], [107]] : List (List Nat)).Nodup ∧
    ((((processBatches [[117], [107]] [exBatch]).map Topic.name =
      ([[117], [107]] : List (List Nat)).filter
        (fun n => !(scanParts n exBatch.records).isEmpty) ++
      ([[117], [107]] : List (List Nat)).filter
        (fun n => (scanParts n exBatch.records).isEmpty))) ∧
    (∀ t ∈ processBatches [[117], [107]] [exBatch],
      t.partitions = scanParts t.name exBatch.records ∨ t.partitions = [])) :=
  ⟨by decide, dtp_topic_order [[117], [107]] exBatch (by decide)⟩
